import Mathlib

set_option autoImplicit false

/-!
Shallow embedding of `src/repo_config.rs` (the hookshot per-repository
deployment-configuration resolver) and proofs about it.

The embedding mirrors `RepoConfig::from_str` block by block: each `let x =
match ...` block of the Rust function becomes one named Lean definition, and
`from_str` chains them exactly as the source does.  The external collaborators
(`VerifiedPath`, `MakeTask`, `AnsibleTask`) live in sibling modules that are
not part of the sources under review, so they are modelled from the spec's
collaborator contracts, parametrised by an `Env` describing the filesystem
and build-task facts they check.
-/

namespace Hookshot

/-- The error type of `::error::Error`: a static description plus an optional
subject (dotted configuration-key path or file path). -/
structure Error where
  desc : String
  subject : Option String
  deriving DecidableEq

/-- Association lookup by string key, first match wins: the behaviour of both
`BTreeMap::get` and of a single step of `toml::Value::lookup` (toml tables
are `BTreeMap`s with unique keys, so first match is the only match). -/
def assocGet {β : Type} (key : String) : List (String × β) → Option β
  | [] => none
  | (k, v) :: rest => if k = key then some v else assocGet key rest

/-- A parsed toml value, at the granularity `repo_config.rs` observes it:
a string, a table, or anything else (integer, float, boolean, array,
datetime), which the code only ever probes with `as_str` / `as_table` /
`lookup`, all of which treat every non-string non-table value alike for the
dot-free keys used here. -/
inductive Toml where
  | str : String → Toml
  | table : List (String × Toml) → Toml
  | other : Toml

def Toml.as_str : Toml → Option String
  | .str s => some s
  | _ => none

def Toml.as_table : Toml → Option (List (String × Toml))
  | .table t => some t
  | _ => none

/-- `toml::Value::lookup` restricted to a single-segment key path (every key
`repo_config.rs` passes is dot-free): a table looks the key up, any other
value yields `none`. -/
def Toml.lookup (t : Toml) (key : String) : Option Toml :=
  match t with
  | .table entries => assocGet key entries
  | _ => none

/-- `DeployMethod` from `repo_config.rs` lines 12-16. -/
inductive DeployMethod where
  | Ansible
  | Makefile
  deriving DecidableEq

/-- `impl ToString for DeployMethod`, lines 17-24. -/
def DeployMethod.to_string : DeployMethod → String
  | .Ansible => "ansible"
  | .Makefile => "makefile"

/-- Modelled from the spec: the facts the external collaborators check at
construction time (`verified_path.rs` and `make_task.rs` are not among the
sources under review).  `fileExists p` says the file at relative path `p`
exists under the project root; `taskDefined t` says the build task named `t`
is defined for the project.  The project root itself is implicit in the two
predicates. -/
structure Env where
  fileExists : String → Bool
  taskDefined : String → Bool

/-- An opaque handle to a path confirmed to exist on disk. -/
structure VerifiedPath where
  path : String
  deriving DecidableEq

/-- Modelled from the spec: `ValidatedPath.file` confirms the candidate file
exists relative to the project root and yields a handle exposing the resolved
path; otherwise it fails (the collaborator supplies the error payload). -/
def VerifiedPath.file (env : Env) (candidate : String) : Except Error VerifiedPath :=
  if env.fileExists candidate then .ok ⟨candidate⟩
  else .error ⟨"file does not exist", some candidate⟩

/-- The display form of a `VerifiedPath`: the path it validated. -/
def VerifiedPath.to_string (v : VerifiedPath) : String := v.path

/-- An opaque validated reference to a named build task. -/
structure MakeTask where
  task : String
  deriving DecidableEq

/-- Modelled from the spec: `BuildTaskRef.new(project_root, task_name)`
validates that the named task is defined for the project and exposes a
display form equal to the task name; construction failure propagates
as-is. -/
def MakeTask.new (env : Env) (task : String) : Except Error MakeTask :=
  if env.taskDefined task then .ok ⟨task⟩
  else .error ⟨"no such task", some task⟩

/-- A (playbook, inventory) pair for a configuration-management run. -/
structure AnsibleTask where
  playbook : String
  inventory : String
  deriving DecidableEq

/-- Modelled from the spec: `PlaybookTaskRef.new(playbook, inventory,
project_root)` is pure construction storing both paths verbatim (the project
root it also receives plays no part in the resolution logic). -/
def AnsibleTask.new (playbook : String) (inventory : String) : AnsibleTask :=
  ⟨playbook, inventory⟩

/-- `BranchConfig`, lines 26-32. -/
structure BranchConfig where
  method : DeployMethod
  make_task : Option MakeTask
  ansible_task : Option AnsibleTask
  notify_url : Option String
  deriving DecidableEq

/-- `RepoConfig`, lines 53-61.  `branches` is a `BTreeMap` in the source; it
is represented as its sorted association list (the resolver inserts keys in
the already-sorted, unique-keyed iteration order of the parsed toml table, so
insertion is appending). -/
structure RepoConfig where
  default_method : DeployMethod
  default_task : Option MakeTask
  default_playbook : Option VerifiedPath
  default_notify_url : Option String
  branches : List (String × BranchConfig)
  deriving DecidableEq

/-- `RepoConfig::lookup_branch`, lines 64-66: `self.branches.get(name)`. -/
def RepoConfig.lookup_branch (cfg : RepoConfig) (name : String) : Option BranchConfig :=
  assocGet name cfg.branches

/-- `LookupResult`, lines 277-281. -/
inductive LookupResult where
  | Missing
  | WrongType
  | Value : String → LookupResult
  deriving DecidableEq

/-- `lookup_as_string`, lines 283-293. -/
def lookup_as_string (obj : Toml) (key : String) : LookupResult :=
  match obj.lookup key with
  | none => .Missing
  | some v =>
    match v.as_str with
    | none => .WrongType
    | some s => .Value s

/-- The `default_method` block of `from_str`, lines 104-118. -/
def defaultsMethod (defaults : Toml) : Except Error DeployMethod :=
  match lookup_as_string defaults "method" with
  | .Missing => .ok .Makefile
  | .WrongType =>
    .error ⟨"could not read 'defaults.method' as string", some "defaults.method"⟩
  | .Value v =>
    if v = "ansible" then .ok .Ansible
    else if v = "makefile" ∨ v = "make" then .ok .Makefile
    else .error ⟨"invalid type, valid values are 'ansible' and 'makefile'",
                 some "defaults.method"⟩

/-- The `default_task` block of `from_str`, lines 120-130. -/
def defaultsTask (env : Env) (defaults : Toml) : Except Error (Option MakeTask) :=
  match lookup_as_string defaults "task" with
  | .Missing => .ok none
  | .WrongType =>
    .error ⟨"could not read 'defaults.task' as string", some "defaults.task"⟩
  | .Value v =>
    match MakeTask.new env v with
    | .ok t => .ok (some t)
    | .error e => .error e

/-- The `default_playbook` block of `from_str`, lines 132-143. -/
def defaultsPlaybook (env : Env) (defaults : Toml) : Except Error (Option VerifiedPath) :=
  match lookup_as_string defaults "playbook" with
  | .Missing => .ok none
  | .WrongType =>
    .error ⟨"could not read 'defaults.playbook' as string", some "defaults.playbook"⟩
  | .Value v =>
    match VerifiedPath.file env v with
    | .ok p => .ok (some p)
    | .error e => .error e

/-- The `default_notify_url` block of `from_str`, lines 145-152. -/
def defaultsNotifyUrl (defaults : Toml) : Except Error (Option String) :=
  match lookup_as_string defaults "notify_url" with
  | .Missing => .ok none
  | .WrongType =>
    .error ⟨"could not read 'defaults.notify_url' as string", some "defaults.notify_url"⟩
  | .Value v => .ok (some v)

/-- The `raw_branches` block of `from_str`, lines 154-166. -/
def getBranchesTable (root : Toml) : Except Error (List (String × Toml)) :=
  match root.lookup "branches" with
  | none =>
    .error ⟨"must configure at least one branch (missing [branches.*])", some "branches.*"⟩
  | some v =>
    match v.as_table with
    | none => .error ⟨"'branches' must be a table", some "branches"⟩
    | some t => .ok t

/-- The branch `method` block of `from_str`, lines 178-192.  Note that the
source's `WrongType` and invalid-value error messages and subjects here say
`defaults.method`, verbatim, even though the key being read is the branch's
own `method`. -/
def branchMethod (default_method : DeployMethod) (table : Toml) : Except Error DeployMethod :=
  match lookup_as_string table "method" with
  | .Missing => .ok default_method
  | .WrongType =>
    .error ⟨"could not read 'defaults.method' as string", some "defaults.method"⟩
  | .Value v =>
    if v = "ansible" then .ok .Ansible
    else if v = "makefile" ∨ v = "make" then .ok .Makefile
    else .error ⟨"invalid type, valid values are 'ansible' and 'makefile'",
                 some "defaults.method"⟩

/-- The branch `playbook` block of `from_str`, lines 194-205. -/
def branchPlaybook (env : Env) (key : String) (table : Toml) :
    Except Error (Option VerifiedPath) :=
  match lookup_as_string table "playbook" with
  | .Missing => .ok none
  | .WrongType =>
    .error ⟨"branch 'playbook' not a string", some ("branch." ++ key ++ ".playbook")⟩
  | .Value v =>
    match VerifiedPath.file env v with
    | .ok p => .ok (some p)
    | .error e => .error e

/-- The branch `inventory` block of `from_str`, lines 206-217. -/
def branchInventory (env : Env) (key : String) (table : Toml) :
    Except Error (Option VerifiedPath) :=
  match lookup_as_string table "inventory" with
  | .Missing => .ok none
  | .WrongType =>
    .error ⟨"branch 'inventory' not a string", some ("branch." ++ key ++ ".inventory")⟩
  | .Value v =>
    match VerifiedPath.file env v with
    | .ok p => .ok (some p)
    | .error e => .error e

/-- The `ansible_task` block of `from_str`, lines 219-228: only attempted when
the method is `Ansible`; the arm `(Some(p), Some(i), _)` takes the branch
pair, `(None, Some(i), Some(p))` combines branch inventory with the default
playbook, everything else is the combination error attributed to
`branch.<key>`. -/
def branchAnsibleTask (method : DeployMethod) (playbook inventory default_playbook : Option VerifiedPath)
    (key : String) : Except Error (Option AnsibleTask) :=
  if method = DeployMethod.Ansible then
    match playbook, inventory, default_playbook with
    | some p, some i, _ => .ok (some (AnsibleTask.new p.to_string i.to_string))
    | none, some i, some p => .ok (some (AnsibleTask.new p.to_string i.to_string))
    | _, _, _ =>
      .error ⟨"could not combine default and branch config to find playbook + inventory combination",
              some ("branch." ++ key)⟩
  else .ok none

/-- The `make_task` block of `from_str`, lines 230-242: only attempted when
the method is `Makefile`; a missing branch `task` yields no task (no fallback
to `defaults.task`). -/
def branchMakeTask (env : Env) (method : DeployMethod) (key : String) (table : Toml) :
    Except Error (Option MakeTask) :=
  if method = DeployMethod.Makefile then
    match lookup_as_string table "task" with
    | .Missing => .ok none
    | .WrongType =>
      .error ⟨"branch 'task' not a string", some ("branch." ++ key ++ ".task")⟩
    | .Value v =>
      match MakeTask.new env v with
      | .ok t => .ok (some t)
      | .error e => .error e
  else .ok none

/-- The branch `notify_url` block of `from_str`, lines 255-262. -/
def branchNotifyUrl (key : String) (table : Toml) : Except Error (Option String) :=
  match lookup_as_string table "notify_url" with
  | .Missing => .ok none
  | .WrongType =>
    .error ⟨"branch 'notify_url' not a string", some ("branch." ++ key ++ ".notify_url")⟩
  | .Value v => .ok (some v)

/-- The body of the `for (key, table) in raw_branches.iter()` loop of
`from_str`, lines 170-263, for one branch: the not-a-table check, then
method, playbook, inventory, ansible task, make task, the completeness
check, and finally `notify_url` (looked up inside the `insert` call, after
the completeness check). -/
def resolveBranch (env : Env) (default_method : DeployMethod)
    (default_playbook : Option VerifiedPath) (key : String) (table : Toml) :
    Except Error BranchConfig :=
  if (table.as_table).isNone then
    .error ⟨"every 'branches' must be a table", some key⟩
  else
    match branchMethod default_method table with
    | .error e => .error e
    | .ok method =>
      match branchPlaybook env key table with
      | .error e => .error e
      | .ok playbook =>
        match branchInventory env key table with
        | .error e => .error e
        | .ok inventory =>
          match branchAnsibleTask method playbook inventory default_playbook key with
          | .error e => .error e
          | .ok ansible_task =>
            match branchMakeTask env method key table with
            | .error e => .error e
            | .ok make_task =>
              if make_task.isNone && ansible_task.isNone then
                .error ⟨"cannot construct a task for branch between local config and defaults",
                        some ("branch." ++ key)⟩
              else
                match branchNotifyUrl key table with
                | .error e => .error e
                | .ok notify_url =>
                  .ok ⟨method, make_task, ansible_task, notify_url⟩

/-- The branch loop of `from_str`, lines 168-264, over the iteration order of
the parsed `branches` table (a `BTreeMap`, so sorted unique keys): each entry
is resolved in turn, the first error aborts, and successful entries are
inserted into the branch map in order. -/
def resolveBranches (env : Env) (default_method : DeployMethod)
    (default_playbook : Option VerifiedPath) :
    List (String × Toml) → Except Error (List (String × BranchConfig))
  | [] => .ok []
  | (key, table) :: rest =>
    match resolveBranch env default_method default_playbook key table with
    | .error e => .error e
    | .ok bc =>
      match resolveBranches env default_method default_playbook rest with
      | .error e => .error e
      | .ok tail => .ok ((key, bc) :: tail)

/-- `RepoConfig::from_str`, lines 87-274, applied to the already-parsed root
table (`toml::Parser::parse` output; an unparsable document is rejected
before this point and is not modelled).  The `defaults` section is fetched
with `root.get("defaults")`, then the four defaults blocks run in source
order, then the `branches` table is fetched and the branch loop runs. -/
def RepoConfig.from_str (env : Env) (root : Toml) : Except Error RepoConfig :=
  match root.lookup "defaults" with
  | none => .error ⟨"missing 'defaults' section", some "defaults"⟩
  | some defaults =>
    match defaultsMethod defaults with
    | .error e => .error e
    | .ok default_method =>
      match defaultsTask env defaults with
      | .error e => .error e
      | .ok default_task =>
        match defaultsPlaybook env defaults with
        | .error e => .error e
        | .ok default_playbook =>
          match defaultsNotifyUrl defaults with
          | .error e => .error e
          | .ok default_notify_url =>
            match getBranchesTable root with
            | .error e => .error e
            | .ok raw_branches =>
              match resolveBranches env default_method default_playbook raw_branches with
              | .error e => .error e
              | .ok branches =>
                .ok ⟨default_method, default_task, default_playbook,
                     default_notify_url, branches⟩

/-- Lexicographic order on character lists, by code point. -/
def charListLt : List Char → List Char → Bool
  | _, [] => false
  | [], _ :: _ => true
  | a :: as, b :: bs =>
    if a.toNat < b.toNat then true
    else if b.toNat < a.toNat then false
    else charListLt as bs

/-- The strict lexicographic order `BTreeMap<String, _>` sorts its keys by
(byte order in Rust; code-point order here — identical on the ASCII keys at
issue). -/
def strLt (a b : String) : Bool := charListLt a.data b.data

/-- `BTreeMap` insertion into a sorted association list: keeps the list
sorted by key, a duplicate key replaces the stored value. -/
def insertEntry (p : String × Toml) : List (String × Toml) → List (String × Toml)
  | [] => [p]
  | q :: rest =>
    if strLt p.1 q.1 then p :: q :: rest
    else if p.1 = q.1 then p :: rest
    else q :: insertEntry p rest

/-- Modelled from the toml parser the source delegates to: `toml::Table` is a
`BTreeMap<String, Value>`, so whatever order the `[branches.*]` sections have
in the document text, the parsed `branches` table holds them in sorted key
order.  `parseDoc defaults bs` is the parsed root of a document whose
`[branches.*]` sections appear in document order `bs`. -/
def parseDoc (defaults : Toml) (branchesDocOrder : List (String × Toml)) : Toml :=
  .table [("branches", .table (branchesDocOrder.foldl (fun acc p => insertEntry p acc) [])),
          ("defaults", defaults)]

/-- The §3 BranchConfig invariant: exactly one of `make_task`/`ansible_task`
is populated, matching `method`. -/
def BranchConfig.invariant (bc : BranchConfig) : Prop :=
  (bc.method = .Makefile → bc.make_task.isSome ∧ bc.ansible_task = none) ∧
  (bc.method = .Ansible → bc.ansible_task.isSome ∧ bc.make_task = none)

/-! ## Supporting lemmas -/

theorem branchAnsibleTask_not_ansible (method : DeployMethod)
    (pb inv dp : Option VerifiedPath) (key : String)
    (h : method ≠ DeployMethod.Ansible) :
    branchAnsibleTask method pb inv dp key = .ok none := by
  unfold branchAnsibleTask
  rw [if_neg h]

theorem branchMakeTask_not_makefile (env : Env) (method : DeployMethod)
    (key : String) (table : Toml) (h : method ≠ DeployMethod.Makefile) :
    branchMakeTask env method key table = .ok none := by
  unfold branchMakeTask
  rw [if_neg h]

theorem branchAnsibleTask_ansible_isSome (pb inv dp : Option VerifiedPath)
    (key : String) (o : Option AnsibleTask)
    (h : branchAnsibleTask DeployMethod.Ansible pb inv dp key = .ok o) :
    o.isSome := by
  unfold branchAnsibleTask at h
  rw [if_pos rfl] at h
  rcases pb with _ | p <;> rcases inv with _ | i <;> rcases dp with _ | d <;>
    first
      | exact Except.noConfusion h
      | (injection h with h; subst h; rfl)

theorem resolveBranch_ok_invariant (env : Env) (dm : DeployMethod)
    (dp : Option VerifiedPath) (key : String) (table : Toml) (bc : BranchConfig)
    (h : resolveBranch env dm dp key table = .ok bc) : bc.invariant := by
  unfold resolveBranch at h
  rcases hT : table.as_table with _ | ents <;> simp only [hT, Option.isNone] at h
  · exact Except.noConfusion h
  rcases hM : branchMethod dm table with e1 | method <;> simp only [hM] at h
  · exact Except.noConfusion h
  rcases hP : branchPlaybook env key table with e2 | playbook <;> simp only [hP] at h
  · exact Except.noConfusion h
  rcases hI : branchInventory env key table with e3 | inventory <;> simp only [hI] at h
  · exact Except.noConfusion h
  rcases hA : branchAnsibleTask method playbook inventory dp key with e4 | atask <;>
    simp only [hA] at h
  · exact Except.noConfusion h
  rcases hMk : branchMakeTask env method key table with e5 | mtask <;> simp only [hMk] at h
  · exact Except.noConfusion h
  rcases mtask with _ | mt <;> rcases atask with _ | at' <;> simp at h
  · -- make task absent, ansible task present
    rcases hU : branchNotifyUrl key table with e6 | url <;> simp only [hU] at h
    · exact Except.noConfusion h
    injection h with h
    subst h
    unfold BranchConfig.invariant
    refine ⟨?_, fun _ => ⟨rfl, rfl⟩⟩
    intro hm
    replace hm : method = DeployMethod.Makefile := hm
    subst hm
    have h2 := branchAnsibleTask_not_ansible DeployMethod.Makefile playbook inventory dp key
      (by simp)
    rw [hA] at h2
    exact absurd h2 (by simp)
  · -- make task present, ansible task absent
    rcases hU : branchNotifyUrl key table with e6 | url <;> simp only [hU] at h
    · exact Except.noConfusion h
    injection h with h
    subst h
    unfold BranchConfig.invariant
    refine ⟨fun _ => ⟨rfl, rfl⟩, ?_⟩
    intro hm
    replace hm : method = DeployMethod.Ansible := hm
    subst hm
    have h2 := branchMakeTask_not_makefile env DeployMethod.Ansible key table (by simp)
    rw [hMk] at h2
    exact absurd h2 (by simp)
  · -- both present: impossible whatever the method is
    cases method with
    | Ansible =>
      have h2 := branchMakeTask_not_makefile env DeployMethod.Ansible key table (by simp)
      rw [hMk] at h2
      exact absurd h2 (by simp)
    | Makefile =>
      have h2 := branchAnsibleTask_not_ansible DeployMethod.Makefile playbook inventory dp key
        (by simp)
      rw [hA] at h2
      exact absurd h2 (by simp)

theorem resolveBranches_ok_mem (env : Env) (dm : DeployMethod)
    (dp : Option VerifiedPath) (bs : List (String × Toml))
    (l : List (String × BranchConfig))
    (h : resolveBranches env dm dp bs = .ok l) :
    ∀ kt ∈ bs, ∃ bc, resolveBranch env dm dp kt.1 kt.2 = .ok bc ∧ (kt.1, bc) ∈ l := by
  induction bs generalizing l with
  | nil => intro kt hkt; cases hkt
  | cons p rest ih =>
    obtain ⟨k, t⟩ := p
    unfold resolveBranches at h
    rcases hB : resolveBranch env dm dp k t with e | bc₀ <;> simp only [hB] at h
    · exact Except.noConfusion h
    rcases hR : resolveBranches env dm dp rest with e | tail <;> simp only [hR] at h
    · exact Except.noConfusion h
    injection h with h
    subst h
    intro kt hkt
    rcases List.mem_cons.mp hkt with rfl | hmem
    · exact ⟨bc₀, hB, List.mem_cons_self _ _⟩
    · obtain ⟨bc, hbc, hin⟩ := ih tail hR kt hmem
      exact ⟨bc, hbc, List.mem_cons_of_mem _ hin⟩

theorem resolveBranches_ok_invariant (env : Env) (dm : DeployMethod)
    (dp : Option VerifiedPath) (bs : List (String × Toml))
    (l : List (String × BranchConfig))
    (h : resolveBranches env dm dp bs = .ok l) :
    ∀ kb ∈ l, BranchConfig.invariant kb.2 := by
  induction bs generalizing l with
  | nil =>
    unfold resolveBranches at h
    injection h with h
    subst h
    intro kb hkb; cases hkb
  | cons p rest ih =>
    obtain ⟨k, t⟩ := p
    unfold resolveBranches at h
    rcases hB : resolveBranch env dm dp k t with e | bc₀ <;> simp only [hB] at h
    · exact Except.noConfusion h
    rcases hR : resolveBranches env dm dp rest with e | tail <;> simp only [hR] at h
    · exact Except.noConfusion h
    injection h with h
    subst h
    intro kb hkb
    rcases List.mem_cons.mp hkb with rfl | hmem
    · exact resolveBranch_ok_invariant _ _ _ _ _ _ hB
    · exact ih tail hR kb hmem

theorem assocGet_of_mem {β : Type} (k : String) (v : β) (l : List (String × β))
    (h : (k, v) ∈ l) : ∃ w, assocGet k l = some w ∧ (k, w) ∈ l := by
  induction l with
  | nil => cases h
  | cons p rest ih =>
    obtain ⟨k', v'⟩ := p
    by_cases hk : k' = k
    · subst hk
      exact ⟨v', by simp [assocGet], List.mem_cons_self _ _⟩
    · have hmem : (k, v) ∈ rest := by
        rcases List.mem_cons.mp h with heq | hm
        · cases heq; exact absurd rfl hk
        · exact hm
      obtain ⟨w, hw, hin⟩ := ih hmem
      refine ⟨w, ?_, List.mem_cons_of_mem _ hin⟩
      simpa [assocGet, hk] using hw

theorem from_str_ok_inversion (env : Env) (root : Toml) (cfg : RepoConfig)
    (h : RepoConfig.from_str env root = .ok cfg) :
    ∃ defaults, root.lookup "defaults" = some defaults ∧
      defaultsMethod defaults = .ok cfg.default_method ∧
      defaultsTask env defaults = .ok cfg.default_task ∧
      defaultsPlaybook env defaults = .ok cfg.default_playbook ∧
      defaultsNotifyUrl defaults = .ok cfg.default_notify_url ∧
      ∃ bs, getBranchesTable root = .ok bs ∧
        resolveBranches env cfg.default_method cfg.default_playbook bs = .ok cfg.branches := by
  unfold RepoConfig.from_str at h
  rcases hD : root.lookup "defaults" with _ | defaults <;> simp only [hD] at h
  · exact Except.noConfusion h
  rcases h1 : defaultsMethod defaults with e | dm <;> simp only [h1] at h
  · exact Except.noConfusion h
  rcases h2 : defaultsTask env defaults with e | dt <;> simp only [h2] at h
  · exact Except.noConfusion h
  rcases h3 : defaultsPlaybook env defaults with e | dpb <;> simp only [h3] at h
  · exact Except.noConfusion h
  rcases h4 : defaultsNotifyUrl defaults with e | dn <;> simp only [h4] at h
  · exact Except.noConfusion h
  rcases h5 : getBranchesTable root with e | bs <;> simp only [h5] at h
  · exact Except.noConfusion h
  rcases hR : resolveBranches env dm dpb bs with e | branches <;> simp only [hR] at h
  · exact Except.noConfusion h
  injection h with h
  subst h
  exact ⟨defaults, rfl, h1, h2, h3, h4, bs, rfl, hR⟩

/-! ## C1 -/

/-- C1: for every document on which `RepoConfig.from_str` succeeds,
`lookup_branch` returns `Some` for every branch name declared under
`[branches]`, and every returned `BranchConfig` satisfies the
exactly-one-of(`make_task`, `ansible_task`) invariant matching its
`method`. -/
theorem C1_lookup_branch_invariant (env : Env) (root : Toml) (cfg : RepoConfig)
    (bs : List (String × Toml))
    (hok : RepoConfig.from_str env root = .ok cfg)
    (hbs : getBranchesTable root = .ok bs) :
    ∀ k ∈ bs.map Prod.fst, ∃ bc, cfg.lookup_branch k = some bc ∧ bc.invariant := by
  intro k hk
  obtain ⟨defaults, _, _, _, _, _, bs', hbs', hR⟩ := from_str_ok_inversion env root cfg hok
  rw [hbs] at hbs'
  injection hbs' with hbs'
  subst hbs'
  obtain ⟨⟨k', t⟩, hmem, rfl⟩ := List.mem_map.mp hk
  obtain ⟨bc, _, hin⟩ := resolveBranches_ok_mem env _ _ bs _ hR (k', t) hmem
  obtain ⟨w, hw, hwin⟩ := assocGet_of_mem k' bc cfg.branches hin
  exact ⟨w, hw, resolveBranches_ok_invariant env _ _ bs _ hR (k', w) hwin⟩

/-- The filesystem and build tasks of the test fixture
`src/test/repo_config` the source's own test loads its document against. -/
def exampleEnv : Env :=
  ⟨fun p => p == "ansible/deploy.yml" || p == "ansible/production.yml" ||
      p == "ansible/inventory/production" || p == "ansible/inventory/staging",
   fun t => t == "deploy" || t == "self-deploy"⟩

/-- The `branches` table of the spec's §8 example document, in its parsed
(sorted) key order. -/
def exampleBranches : List (String × Toml) :=
  [("brian-test-branch", .table [("method", .str "makefile"), ("task", .str "self-deploy")]),
   ("production", .table [("inventory", .str "ansible/inventory/production"),
                          ("playbook", .str "ansible/production.yml")]),
   ("staging", .table [("inventory", .str "ansible/inventory/staging"),
                       ("notify_url", .str "http://example.org")])]

/-- The parsed root of the spec's §8 example document. -/
def exampleRoot : Toml :=
  .table [("branches", .table exampleBranches),
          ("defaults", .table [("method", .str "ansible"),
                               ("playbook", .str "ansible/deploy.yml"),
                               ("task", .str "deploy")])]

/-- The configuration the §8 example document resolves to. -/
def exampleConfig : RepoConfig :=
  ⟨.Ansible, some ⟨"deploy"⟩, some ⟨"ansible/deploy.yml"⟩, none,
   [("brian-test-branch", ⟨.Makefile, some ⟨"self-deploy"⟩, none, none⟩),
    ("production", ⟨.Ansible, none,
                    some ⟨"ansible/production.yml", "ansible/inventory/production"⟩, none⟩),
    ("staging", ⟨.Ansible, none,
                 some ⟨"ansible/deploy.yml", "ansible/inventory/staging"⟩,
                 some "http://example.org"⟩)]⟩

/-- Witness for C1, at the spec's §8 example document and its `staging`
branch. -/
theorem C1_lookup_branch_invariant_witness :
    ∃ bc, exampleConfig.lookup_branch "staging" = some bc ∧ bc.invariant :=
  C1_lookup_branch_invariant exampleEnv exampleRoot exampleConfig exampleBranches
    rfl rfl "staging" (by decide)

/-! ## C3 and C4 -/

theorem defaultsMethod_invalid (defaults : Toml) (v : String)
    (h1 : v ≠ "ansible") (h2 : v ≠ "makefile") (h3 : v ≠ "make")
    (h : lookup_as_string defaults "method" = .Value v) :
    defaultsMethod defaults =
      .error ⟨"invalid type, valid values are 'ansible' and 'makefile'",
              some "defaults.method"⟩ := by
  unfold defaultsMethod
  simp only [h]
  rw [if_neg h1, if_neg (not_or.mpr ⟨h2, h3⟩)]

theorem branchMethod_invalid (dm : DeployMethod) (table : Toml) (v : String)
    (h1 : v ≠ "ansible") (h2 : v ≠ "makefile") (h3 : v ≠ "make")
    (h : lookup_as_string table "method" = .Value v) :
    branchMethod dm table =
      .error ⟨"invalid type, valid values are 'ansible' and 'makefile'",
              some "defaults.method"⟩ := by
  unfold branchMethod
  simp only [h]
  rw [if_neg h1, if_neg (not_or.mpr ⟨h2, h3⟩)]

/-- C3: a branch whose `method` key is absent resolves to the already-resolved
default method; `defaults.method` itself resolves as `Missing` to `Makefile`,
`"ansible"` to `Ansible`, `"makefile"` or `"make"` to `Makefile`; and when
both the branch key and `defaults.method` are absent the effective method is
`Makefile`. -/
theorem C3_method_inheritance :
    (∀ (dm : DeployMethod) (table : Toml),
      lookup_as_string table "method" = .Missing → branchMethod dm table = .ok dm) ∧
    (∀ defaults : Toml, lookup_as_string defaults "method" = .Missing →
      defaultsMethod defaults = .ok DeployMethod.Makefile) ∧
    (∀ defaults : Toml, lookup_as_string defaults "method" = .Value "ansible" →
      defaultsMethod defaults = .ok DeployMethod.Ansible) ∧
    (∀ (defaults : Toml) (v : String), (v = "makefile" ∨ v = "make") →
      lookup_as_string defaults "method" = .Value v →
      defaultsMethod defaults = .ok DeployMethod.Makefile) ∧
    (∀ (dm : DeployMethod) (table defaults : Toml),
      lookup_as_string table "method" = .Missing →
      lookup_as_string defaults "method" = .Missing →
      defaultsMethod defaults = .ok dm →
      branchMethod dm table = .ok DeployMethod.Makefile) := by
  refine ⟨?_, ?_, ?_, ?_, ?_⟩
  · intro dm table h
    unfold branchMethod
    rw [h]
  · intro d h
    unfold defaultsMethod
    rw [h]
  · intro d h
    unfold defaultsMethod
    rw [h]
    rfl
  · intro d v hv h
    unfold defaultsMethod
    rw [h]
    rcases hv with rfl | rfl <;> rfl
  · intro dm table defaults h1 h2 h3
    unfold defaultsMethod at h3
    rw [h2] at h3
    injection h3 with h3
    subst h3
    unfold branchMethod
    rw [h1]

/-- Witness for C3 at concrete sections. -/
theorem C3_method_inheritance_witness :
    branchMethod DeployMethod.Ansible (Toml.table []) = .ok DeployMethod.Ansible ∧
    defaultsMethod (Toml.table []) = .ok DeployMethod.Makefile ∧
    defaultsMethod (Toml.table [("method", Toml.str "ansible")]) = .ok DeployMethod.Ansible ∧
    defaultsMethod (Toml.table [("method", Toml.str "make")]) = .ok DeployMethod.Makefile ∧
    branchMethod DeployMethod.Makefile (Toml.table []) = .ok DeployMethod.Makefile :=
  ⟨C3_method_inheritance.1 DeployMethod.Ansible (Toml.table []) rfl,
   C3_method_inheritance.2.1 (Toml.table []) rfl,
   C3_method_inheritance.2.2.1 (Toml.table [("method", Toml.str "ansible")]) rfl,
   C3_method_inheritance.2.2.2.1 (Toml.table [("method", Toml.str "make")]) "make"
     (Or.inr rfl) rfl,
   C3_method_inheritance.2.2.2.2 DeployMethod.Makefile (Toml.table []) (Toml.table [])
     rfl rfl rfl⟩

/-- C4: for a `method` key present as a string, in `defaults` or in any
branch, `"make"` and `"makefile"` resolve to the same `DeployMethod.Makefile`,
`"ansible"` resolves to `Ansible`, and any other string fails — at
`defaults.method` the whole load returns the invalid-value error. -/
theorem C4_method_string_values :
    (∀ (defaults : Toml) (v : String), (v = "make" ∨ v = "makefile") →
      lookup_as_string defaults "method" = .Value v →
      defaultsMethod defaults = .ok DeployMethod.Makefile) ∧
    (∀ defaults : Toml, lookup_as_string defaults "method" = .Value "ansible" →
      defaultsMethod defaults = .ok DeployMethod.Ansible) ∧
    (∀ (dm : DeployMethod) (table : Toml) (v : String), (v = "make" ∨ v = "makefile") →
      lookup_as_string table "method" = .Value v →
      branchMethod dm table = .ok DeployMethod.Makefile) ∧
    (∀ (dm : DeployMethod) (table : Toml), lookup_as_string table "method" = .Value "ansible" →
      branchMethod dm table = .ok DeployMethod.Ansible) ∧
    (∀ (defaults : Toml) (v : String), v ≠ "ansible" → v ≠ "makefile" → v ≠ "make" →
      lookup_as_string defaults "method" = .Value v →
      ∃ e, defaultsMethod defaults = .error e) ∧
    (∀ (dm : DeployMethod) (table : Toml) (v : String),
      v ≠ "ansible" → v ≠ "makefile" → v ≠ "make" →
      lookup_as_string table "method" = .Value v →
      ∃ e, branchMethod dm table = .error e) ∧
    (∀ (env : Env) (root defaults : Toml) (v : String),
      root.lookup "defaults" = some defaults →
      lookup_as_string defaults "method" = .Value v →
      v ≠ "ansible" → v ≠ "makefile" → v ≠ "make" →
      RepoConfig.from_str env root =
        .error ⟨"invalid type, valid values are 'ansible' and 'makefile'",
                some "defaults.method"⟩) := by
  refine ⟨?_, ?_, ?_, ?_, ?_, ?_, ?_⟩
  · intro d v hv h
    unfold defaultsMethod
    rw [h]
    rcases hv with rfl | rfl <;> rfl
  · intro d h
    unfold defaultsMethod
    rw [h]
    rfl
  · intro dm table v hv h
    unfold branchMethod
    rw [h]
    rcases hv with rfl | rfl <;> rfl
  · intro dm table h
    unfold branchMethod
    rw [h]
    rfl
  · intro d v h1 h2 h3 h
    exact ⟨_, defaultsMethod_invalid d v h1 h2 h3 h⟩
  · intro dm table v h1 h2 h3 h
    exact ⟨_, branchMethod_invalid dm table v h1 h2 h3 h⟩
  · intro env root defaults v hroot h h1 h2 h3
    have hd := defaultsMethod_invalid defaults v h1 h2 h3 h
    unfold RepoConfig.from_str
    simp only [hroot, hd]

/-- Witness for C4 at concrete sections and a concrete document. -/
theorem C4_method_string_values_witness :
    defaultsMethod (Toml.table [("method", Toml.str "make")]) = .ok DeployMethod.Makefile ∧
    defaultsMethod (Toml.table [("method", Toml.str "makefile")]) = .ok DeployMethod.Makefile ∧
    branchMethod DeployMethod.Ansible (Toml.table [("method", Toml.str "make")]) =
      .ok DeployMethod.Makefile ∧
    RepoConfig.from_str ⟨fun _ => false, fun _ => false⟩
        (Toml.table [("defaults", Toml.table [("method", Toml.str "bogus")])]) =
      .error ⟨"invalid type, valid values are 'ansible' and 'makefile'",
              some "defaults.method"⟩ :=
  ⟨C4_method_string_values.1 (Toml.table [("method", Toml.str "make")]) "make"
     (Or.inl rfl) rfl,
   C4_method_string_values.1 (Toml.table [("method", Toml.str "makefile")]) "makefile"
     (Or.inr rfl) rfl,
   C4_method_string_values.2.2.1 DeployMethod.Ansible
     (Toml.table [("method", Toml.str "make")]) "make" (Or.inl rfl) rfl,
   C4_method_string_values.2.2.2.2.2.2 ⟨fun _ => false, fun _ => false⟩
     (Toml.table [("defaults", Toml.table [("method", Toml.str "bogus")])])
     (Toml.table [("method", Toml.str "bogus")]) "bogus" rfl rfl
     (by decide) (by decide) (by decide)⟩

/-! ## C2 and C5 -/

/-- C2: for a branch whose resolved method is `Ansible`, resolution uses the
branch playbook and inventory when both are present; uses the branch
inventory together with the repository default playbook when the branch
supplies only an inventory and a default playbook exists; and in every other
combination of resolved branch playbook, resolved branch inventory and
default playbook fails with the combination error whose subject is
`branch.<name>`. -/
theorem C2_ansible_combination :
    (∀ (env : Env) (dm : DeployMethod) (dp : Option VerifiedPath) (key : String)
       (table : Toml) (p i : String),
      (table.as_table).isSome →
      branchMethod dm table = .ok DeployMethod.Ansible →
      lookup_as_string table "playbook" = .Value p → env.fileExists p = true →
      lookup_as_string table "inventory" = .Value i → env.fileExists i = true →
      lookup_as_string table "notify_url" ≠ .WrongType →
      ∃ bc, resolveBranch env dm dp key table = .ok bc ∧
        bc.ansible_task = some (AnsibleTask.new p i)) ∧
    (∀ (env : Env) (dm : DeployMethod) (d : VerifiedPath) (key : String)
       (table : Toml) (i : String),
      (table.as_table).isSome →
      branchMethod dm table = .ok DeployMethod.Ansible →
      lookup_as_string table "playbook" = .Missing →
      lookup_as_string table "inventory" = .Value i → env.fileExists i = true →
      lookup_as_string table "notify_url" ≠ .WrongType →
      ∃ bc, resolveBranch env dm (some d) key table = .ok bc ∧
        bc.ansible_task = some (AnsibleTask.new d.to_string i)) ∧
    (∀ (env : Env) (dm : DeployMethod) (dp : Option VerifiedPath) (key : String)
       (table : Toml) (pb inv : Option VerifiedPath),
      (table.as_table).isSome →
      branchMethod dm table = .ok DeployMethod.Ansible →
      branchPlaybook env key table = .ok pb →
      branchInventory env key table = .ok inv →
      (inv = none ∨ (pb = none ∧ dp = none)) →
      resolveBranch env dm dp key table =
        .error ⟨"could not combine default and branch config to find playbook + inventory combination",
                some ("branch." ++ key)⟩) := by
  refine ⟨?_, ?_, ?_⟩
  · intro env dm dp key table p i hT hM hp hfp hi hfi hnu
    rcases hs : table.as_table with _ | ents
    · rw [hs] at hT; exact absurd hT (by simp)
    have hP : branchPlaybook env key table = .ok (some ⟨p⟩) := by
      unfold branchPlaybook
      simp only [hp]
      unfold VerifiedPath.file
      rw [hfp]
      rfl
    have hI : branchInventory env key table = .ok (some ⟨i⟩) := by
      unfold branchInventory
      simp only [hi]
      unfold VerifiedPath.file
      rw [hfi]
      rfl
    have hMk : branchMakeTask env DeployMethod.Ansible key table = .ok none :=
      branchMakeTask_not_makefile env _ key table (by simp)
    have hA : branchAnsibleTask DeployMethod.Ansible (some ⟨p⟩) (some ⟨i⟩) dp key =
        .ok (some (AnsibleTask.new p i)) := by
      unfold branchAnsibleTask
      rw [if_pos rfl]
      rfl
    obtain ⟨url, hU⟩ : ∃ url, branchNotifyUrl key table = .ok url := by
      unfold branchNotifyUrl
      rcases hc : lookup_as_string table "notify_url" with _ | _ | v
      · exact ⟨none, rfl⟩
      · exact absurd hc hnu
      · exact ⟨some v, rfl⟩
    refine ⟨⟨DeployMethod.Ansible, none, some (AnsibleTask.new p i), url⟩, ?_, rfl⟩
    unfold resolveBranch
    simp [hs, hM, hP, hI, hA, hMk, hU]
  · intro env dm d key table i hT hM hp hi hfi hnu
    rcases hs : table.as_table with _ | ents
    · rw [hs] at hT; exact absurd hT (by simp)
    have hP : branchPlaybook env key table = .ok none := by
      unfold branchPlaybook
      simp only [hp]
    have hI : branchInventory env key table = .ok (some ⟨i⟩) := by
      unfold branchInventory
      simp only [hi]
      unfold VerifiedPath.file
      rw [hfi]
      rfl
    have hMk : branchMakeTask env DeployMethod.Ansible key table = .ok none :=
      branchMakeTask_not_makefile env _ key table (by simp)
    have hA : branchAnsibleTask DeployMethod.Ansible none (some ⟨i⟩) (some d) key =
        .ok (some (AnsibleTask.new d.to_string i)) := by
      unfold branchAnsibleTask
      rw [if_pos rfl]
      rfl
    obtain ⟨url, hU⟩ : ∃ url, branchNotifyUrl key table = .ok url := by
      unfold branchNotifyUrl
      rcases hc : lookup_as_string table "notify_url" with _ | _ | v
      · exact ⟨none, rfl⟩
      · exact absurd hc hnu
      · exact ⟨some v, rfl⟩
    refine ⟨⟨DeployMethod.Ansible, none, some (AnsibleTask.new d.to_string i), url⟩, ?_, rfl⟩
    unfold resolveBranch
    simp [hs, hM, hP, hI, hA, hMk, hU]
  · intro env dm dp key table pb inv hT hM hP hI hcomb
    rcases hs : table.as_table with _ | ents
    · rw [hs] at hT; exact absurd hT (by simp)
    have hA : branchAnsibleTask DeployMethod.Ansible pb inv dp key =
        .error ⟨"could not combine default and branch config to find playbook + inventory combination",
                some ("branch." ++ key)⟩ := by
      rcases hcomb with rfl | ⟨rfl, rfl⟩
      · unfold branchAnsibleTask
        rw [if_pos rfl]
        rcases pb with _ | p <;> rcases dp with _ | d <;> rfl
      · unfold branchAnsibleTask
        rw [if_pos rfl]
        rcases inv with _ | i <;> rfl
    unfold resolveBranch
    simp [hs, hM, hP, hI, hA]

/-- Witness for C2: the three combination outcomes at concrete branch
sections, using the §8 example environment. -/
theorem C2_ansible_combination_witness :
    (∃ bc, resolveBranch exampleEnv DeployMethod.Ansible none "production"
        (Toml.table [("inventory", Toml.str "ansible/inventory/production"),
                     ("playbook", Toml.str "ansible/production.yml")]) = .ok bc ∧
      bc.ansible_task =
        some (AnsibleTask.new "ansible/production.yml" "ansible/inventory/production")) ∧
    (∃ bc, resolveBranch exampleEnv DeployMethod.Ansible (some ⟨"ansible/deploy.yml"⟩)
        "staging"
        (Toml.table [("inventory", Toml.str "ansible/inventory/staging")]) = .ok bc ∧
      bc.ansible_task =
        some (AnsibleTask.new "ansible/deploy.yml" "ansible/inventory/staging")) ∧
    resolveBranch exampleEnv DeployMethod.Ansible none "staging"
        (Toml.table [("inventory", Toml.str "ansible/inventory/staging")]) =
      .error ⟨"could not combine default and branch config to find playbook + inventory combination",
              some "branch.staging"⟩ :=
  ⟨C2_ansible_combination.1 exampleEnv DeployMethod.Ansible none "production"
     (Toml.table [("inventory", Toml.str "ansible/inventory/production"),
                  ("playbook", Toml.str "ansible/production.yml")])
     "ansible/production.yml" "ansible/inventory/production"
     rfl rfl rfl rfl rfl rfl (by decide),
   C2_ansible_combination.2.1 exampleEnv DeployMethod.Ansible ⟨"ansible/deploy.yml"⟩
     "staging" (Toml.table [("inventory", Toml.str "ansible/inventory/staging")])
     "ansible/inventory/staging" rfl rfl rfl rfl rfl (by decide),
   C2_ansible_combination.2.2 exampleEnv DeployMethod.Ansible none "staging"
     (Toml.table [("inventory", Toml.str "ansible/inventory/staging")])
     none (some ⟨"ansible/inventory/staging"⟩) rfl rfl rfl rfl (Or.inr ⟨rfl, rfl⟩)⟩

/-- C5: a branch whose resolved method is `Makefile` and whose own `task` key
is absent gets no make task — `resolveBranch` consults no default task at all
(it does not even receive one) — so resolution fails with the
cannot-construct-a-task error attributed to the branch, whatever the
repository defaults hold. -/
theorem C5_makefile_no_task_fallback :
    ∀ (env : Env) (dm : DeployMethod) (dp : Option VerifiedPath) (key : String)
      (table : Toml) (pb inv : Option VerifiedPath),
      (table.as_table).isSome →
      branchMethod dm table = .ok DeployMethod.Makefile →
      branchPlaybook env key table = .ok pb →
      branchInventory env key table = .ok inv →
      lookup_as_string table "task" = .Missing →
      resolveBranch env dm dp key table =
        .error ⟨"cannot construct a task for branch between local config and defaults",
                some ("branch." ++ key)⟩ := by
  intro env dm dp key table pb inv hT hM hP hI htask
  rcases hs : table.as_table with _ | ents
  · rw [hs] at hT; exact absurd hT (by simp)
  have hMk : branchMakeTask env DeployMethod.Makefile key table = .ok none := by
    unfold branchMakeTask
    rw [if_pos rfl]
    simp only [htask]
  have hA : branchAnsibleTask DeployMethod.Makefile pb inv dp key = .ok none :=
    branchAnsibleTask_not_ansible _ _ _ _ _ (by simp)
  unfold resolveBranch
  simp [hs, hM, hP, hI, hA, hMk]

/-- Witness for C5: a `method = "makefile"` branch without a `task` key, in an
environment where `defaults.task` would have been constructible. -/
theorem C5_makefile_no_task_fallback_witness :
    resolveBranch exampleEnv DeployMethod.Makefile none "empty"
        (Toml.table [("method", Toml.str "makefile")]) =
      .error ⟨"cannot construct a task for branch between local config and defaults",
              some "branch.empty"⟩ :=
  C5_makefile_no_task_fallback exampleEnv DeployMethod.Makefile none "empty"
    (Toml.table [("method", Toml.str "makefile")]) none none rfl rfl rfl rfl rfl

/-! ## C8 -/

theorem resolveBranch_ok_notify (env : Env) (dm : DeployMethod)
    (dp : Option VerifiedPath) (key : String) (table : Toml) (bc : BranchConfig)
    (h : resolveBranch env dm dp key table = .ok bc) :
    branchNotifyUrl key table = .ok bc.notify_url := by
  unfold resolveBranch at h
  rcases hT : table.as_table with _ | ents <;> simp only [hT, Option.isNone] at h
  · exact Except.noConfusion h
  rcases hM : branchMethod dm table with e1 | method <;> simp only [hM] at h
  · exact Except.noConfusion h
  rcases hP : branchPlaybook env key table with e2 | playbook <;> simp only [hP] at h
  · exact Except.noConfusion h
  rcases hI : branchInventory env key table with e3 | inventory <;> simp only [hI] at h
  · exact Except.noConfusion h
  rcases hA : branchAnsibleTask method playbook inventory dp key with e4 | atask <;>
    simp only [hA] at h
  · exact Except.noConfusion h
  rcases hMk : branchMakeTask env method key table with e5 | mtask <;> simp only [hMk] at h
  · exact Except.noConfusion h
  rcases mtask with _ | mt <;> rcases atask with _ | at1 <;> simp at h
  all_goals
    rcases hU : branchNotifyUrl key table with e6 | url <;> simp only [hU] at h
  all_goals try exact Except.noConfusion h
  all_goals (injection h with h; subst h; rfl)

/-- C8: a branch `notify_url` key that is absent yields no notify url, a
string value is stored verbatim in the resolved branch, and a present
non-string value fails resolution (once the preceding steps succeed) with the
type error whose subject is exactly `branch.<name>.notify_url`. -/
theorem C8_notify_url :
    (∀ (key : String) (table : Toml), lookup_as_string table "notify_url" = .Missing →
      branchNotifyUrl key table = .ok none) ∧
    (∀ (key : String) (table : Toml) (v : String),
      lookup_as_string table "notify_url" = .Value v →
      branchNotifyUrl key table = .ok (some v)) ∧
    (∀ (key : String) (table : Toml), lookup_as_string table "notify_url" = .WrongType →
      branchNotifyUrl key table =
        .error ⟨"branch 'notify_url' not a string", some ("branch." ++ key ++ ".notify_url")⟩) ∧
    (∀ (env : Env) (dm : DeployMethod) (dp : Option VerifiedPath) (key : String)
       (table : Toml) (bc : BranchConfig),
      resolveBranch env dm dp key table = .ok bc →
      branchNotifyUrl key table = .ok bc.notify_url) ∧
    (∀ (env : Env) (dm : DeployMethod) (dp : Option VerifiedPath) (key : String)
       (table : Toml) (method : DeployMethod) (pb inv : Option VerifiedPath)
       (ata : Option AnsibleTask) (mta : Option MakeTask),
      (table.as_table).isSome →
      branchMethod dm table = .ok method →
      branchPlaybook env key table = .ok pb →
      branchInventory env key table = .ok inv →
      branchAnsibleTask method pb inv dp key = .ok ata →
      branchMakeTask env method key table = .ok mta →
      (mta.isNone && ata.isNone) = false →
      lookup_as_string table "notify_url" = .WrongType →
      resolveBranch env dm dp key table =
        .error ⟨"branch 'notify_url' not a string",
                some ("branch." ++ key ++ ".notify_url")⟩) := by
  refine ⟨?_, ?_, ?_, ?_, ?_⟩
  · intro key table h
    unfold branchNotifyUrl
    rw [h]
  · intro key table v h
    unfold branchNotifyUrl
    rw [h]
  · intro key table h
    unfold branchNotifyUrl
    rw [h]
  · exact resolveBranch_ok_notify
  · intro env dm dp key table method pb inv ata mta hT hM hP hI hA hMk hC hw
    rcases hs : table.as_table with _ | ents
    · rw [hs] at hT; exact absurd hT (by simp)
    have hU : branchNotifyUrl key table =
        .error ⟨"branch 'notify_url' not a string",
                some ("branch." ++ key ++ ".notify_url")⟩ := by
      unfold branchNotifyUrl
      rw [hw]
    rcases mta with _ | mt <;> rcases ata with _ | at1
    · exact absurd hC (by simp)
    all_goals
      unfold resolveBranch
    all_goals
      simp [hs, hM, hP, hI, hA, hMk, hU]

/-- Witness for C8 at concrete branch sections. -/
theorem C8_notify_url_witness :
    branchNotifyUrl "x" (Toml.table []) = .ok none ∧
    branchNotifyUrl "x" (Toml.table [("notify_url", Toml.str "http://example.org")]) =
      .ok (some "http://example.org") ∧
    branchNotifyUrl "x" (Toml.table [("notify_url", Toml.other)]) =
      .error ⟨"branch 'notify_url' not a string", some "branch.x.notify_url"⟩ ∧
    branchNotifyUrl "staging"
        (Toml.table [("inventory", Toml.str "ansible/inventory/staging"),
                     ("notify_url", Toml.str "http://example.org")]) =
      .ok (some "http://example.org") ∧
    resolveBranch ⟨fun _ => false, fun t => t == "t"⟩ DeployMethod.Makefile none "x"
        (Toml.table [("notify_url", Toml.other), ("task", Toml.str "t")]) =
      .error ⟨"branch 'notify_url' not a string", some "branch.x.notify_url"⟩ :=
  ⟨C8_notify_url.1 "x" (Toml.table []) rfl,
   C8_notify_url.2.1 "x" (Toml.table [("notify_url", Toml.str "http://example.org")])
     "http://example.org" rfl,
   C8_notify_url.2.2.1 "x" (Toml.table [("notify_url", Toml.other)]) rfl,
   C8_notify_url.2.2.2.1 exampleEnv DeployMethod.Ansible (some ⟨"ansible/deploy.yml"⟩)
     "staging"
     (Toml.table [("inventory", Toml.str "ansible/inventory/staging"),
                  ("notify_url", Toml.str "http://example.org")])
     ⟨DeployMethod.Ansible, none,
      some ⟨"ansible/deploy.yml", "ansible/inventory/staging"⟩,
      some "http://example.org"⟩ rfl,
   C8_notify_url.2.2.2.2 ⟨fun _ => false, fun t => t == "t"⟩ DeployMethod.Makefile none
     "x" (Toml.table [("notify_url", Toml.other), ("task", Toml.str "t")])
     DeployMethod.Makefile none none none (some ⟨"t"⟩)
     rfl rfl rfl rfl rfl rfl rfl rfl⟩

/-! ## C10 -/

/-- C10: when the top-level `defaults` key is present but its value is not a
table, `from_str` reports no structural error for the defaults section: every
defaults field lookup is `Missing`, so the default method is `Makefile` and
the other three defaults are `None`, and the load outcome is exactly that of
resolving the branches against those fallback defaults. -/
theorem C10_defaults_not_a_table :
    ∀ (env : Env) (root d : Toml),
      root.lookup "defaults" = some d → d.as_table = none →
      RepoConfig.from_str env root =
        (match getBranchesTable root with
         | .error e => .error e
         | .ok bs =>
           match resolveBranches env DeployMethod.Makefile none bs with
           | .error e => .error e
           | .ok branches =>
             .ok ⟨DeployMethod.Makefile, none, none, none, branches⟩) := by
  intro env root d hroot htbl
  have hlk : ∀ k : String, d.lookup k = none := by
    intro k
    cases d with
    | str s => rfl
    | table t => exact absurd htbl (by simp [Toml.as_table])
    | other => rfl
  have hmiss : ∀ k : String, lookup_as_string d k = .Missing := by
    intro k
    unfold lookup_as_string
    rw [hlk k]
  have h1 : defaultsMethod d = .ok DeployMethod.Makefile := by
    unfold defaultsMethod
    rw [hmiss]
  have h2 : defaultsTask env d = .ok none := by
    unfold defaultsTask
    rw [hmiss]
  have h3 : defaultsPlaybook env d = .ok none := by
    unfold defaultsPlaybook
    rw [hmiss]
  have h4 : defaultsNotifyUrl d = .ok none := by
    unfold defaultsNotifyUrl
    rw [hmiss]
  unfold RepoConfig.from_str
  simp only [hroot, h1, h2, h3, h4]

/-- Witness for C10: a document whose `defaults` value is the string
`"oops"` still loads, with every defaults field at its fallback. -/
theorem C10_defaults_not_a_table_witness :
    RepoConfig.from_str ⟨fun _ => false, fun t => t == "t"⟩
        (Toml.table [("branches", Toml.table [("x", Toml.table [("task", Toml.str "t")])]),
                     ("defaults", Toml.str "oops")]) =
      .ok ⟨DeployMethod.Makefile, none, none, none,
           [("x", ⟨DeployMethod.Makefile, some ⟨"t"⟩, none, none⟩)]⟩ :=
  (C10_defaults_not_a_table ⟨fun _ => false, fun t => t == "t"⟩
    (Toml.table [("branches", Toml.table [("x", Toml.table [("task", Toml.str "t")])]),
                 ("defaults", Toml.str "oops")])
    (Toml.str "oops") rfl rfl).trans rfl

/-! ## C6 and C7 (evaluations at the inputs where spec and code diverge) -/

/-- C6 evaluated: a missing `branches` key and a non-table `branches` value
are rejected, but a `branches` table with zero entries loads successfully,
yielding a `RepoConfig` that names zero branches — the branch loop simply
runs zero times and the at-least-one-branch requirement stated by the
missing-key error message is never enforced for the empty table. -/
theorem C6_branches_validation :
    RepoConfig.from_str ⟨fun _ => false, fun _ => false⟩
        (Toml.table [("defaults", Toml.table [])]) =
      .error ⟨"must configure at least one branch (missing [branches.*])",
              some "branches.*"⟩ ∧
    RepoConfig.from_str ⟨fun _ => false, fun _ => false⟩
        (Toml.table [("branches", Toml.str "nope"), ("defaults", Toml.table [])]) =
      .error ⟨"'branches' must be a table", some "branches"⟩ ∧
    RepoConfig.from_str ⟨fun _ => false, fun _ => false⟩
        (Toml.table [("branches", Toml.table []), ("defaults", Toml.table [])]) =
      .ok ⟨DeployMethod.Makefile, none, none, none, []⟩ :=
  ⟨rfl, rfl, rfl⟩

/-- C7 evaluated: a branch `x` whose `method` key holds a non-string value
makes the load fail, but the error carries the description and subject
`defaults.method` — not `branch.x.method` — copied from the defaults
resolver. -/
theorem C7_branch_method_type_error_subject :
    RepoConfig.from_str ⟨fun _ => false, fun _ => false⟩
        (Toml.table [("branches", Toml.table [("x", Toml.table [("method", Toml.other)])]),
                     ("defaults", Toml.table [])]) =
      .error ⟨"could not read 'defaults.method' as string", some "defaults.method"⟩ :=
  rfl

/-! ## C9 -/

theorem resolveBranches_first_error (env : Env) (dm : DeployMethod)
    (dp : Option VerifiedPath) :
    ∀ (pre : List (String × Toml)) (k : String) (t : Toml)
      (post : List (String × Toml)) (e : Error),
      (∀ p ∈ pre, ∃ bc, resolveBranch env dm dp p.1 p.2 = .ok bc) →
      resolveBranch env dm dp k t = .error e →
      resolveBranches env dm dp (pre ++ (k, t) :: post) = .error e := by
  intro pre
  induction pre with
  | nil =>
    intro k t post e _ hk
    simp only [List.nil_append]
    unfold resolveBranches
    rw [hk]
  | cons p rest ih =>
    intro k t post e hpre hk
    obtain ⟨k0, t0⟩ := p
    obtain ⟨bc0, hbc0⟩ := hpre (k0, t0) (List.mem_cons_self _ _)
    have htail := ih k t post e (fun q hq => hpre q (List.mem_cons_of_mem _ hq)) hk
    simp only [List.cons_append]
    unfold resolveBranches
    rw [hbc0, htail]

/-- C9 as amended: `from_str` resolves the defaults once and then the branch
entries one per entry in the parsed `branches` table's iteration order — the
sorted key order of the `BTreeMap` the toml parser produces, not the document
order of the `[branches.*]` sections — and the first failure in that order
aborts the whole load with that failure's error. -/
theorem C9_first_failure_in_table_order :
    ∀ (env : Env) (root defaults : Toml) (dm : DeployMethod) (dt : Option MakeTask)
      (dp : Option VerifiedPath) (dn : Option String)
      (pre post : List (String × Toml)) (k : String) (t : Toml) (e : Error),
      root.lookup "defaults" = some defaults →
      defaultsMethod defaults = .ok dm →
      defaultsTask env defaults = .ok dt →
      defaultsPlaybook env defaults = .ok dp →
      defaultsNotifyUrl defaults = .ok dn →
      getBranchesTable root = .ok (pre ++ (k, t) :: post) →
      (∀ p ∈ pre, ∃ bc, resolveBranch env dm dp p.1 p.2 = .ok bc) →
      resolveBranch env dm dp k t = .error e →
      RepoConfig.from_str env root = .error e := by
  intro env root defaults dm dt dp dn pre post k t e hD h1 h2 h3 h4 h5 hpre hk
  have hbr := resolveBranches_first_error env dm dp pre k t post e hpre hk
  unfold RepoConfig.from_str
  simp only [hD, h1, h2, h3, h4, h5, hbr]

/-- Witness for the amended C9: in the two-branch document below the parsed
table order is `aaa`, `bbb`, branch `aaa` fails first, and the load returns
branch `aaa`'s error. -/
theorem C9_first_failure_in_table_order_witness :
    RepoConfig.from_str ⟨fun _ => false, fun _ => false⟩
        (parseDoc (Toml.table []) [("bbb", Toml.table []), ("aaa", Toml.table [])]) =
      .error ⟨"cannot construct a task for branch between local config and defaults",
              some "branch.aaa"⟩ :=
  C9_first_failure_in_table_order ⟨fun _ => false, fun _ => false⟩
    (parseDoc (Toml.table []) [("bbb", Toml.table []), ("aaa", Toml.table [])])
    (Toml.table []) DeployMethod.Makefile none none none
    [] [("bbb", Toml.table [])] "aaa" (Toml.table [])
    ⟨"cannot construct a task for branch between local config and defaults",
     some "branch.aaa"⟩
    rfl rfl rfl rfl rfl rfl (fun p hp => absurd hp (List.not_mem_nil p)) rfl

/-- C9 counterexample: the claim's "document order" part is false.  In the
document whose `[branches.*]` sections appear in the order `bbb`, `aaa`
(both individually invalid), the parsed table holds them sorted, branch `bbb`
alone fails with subject `branch.bbb`, yet the two-branch document's load
fails with branch `aaa`'s error — not the error of the branch that appears
first in the document. -/
theorem C9_document_order_counterexample :
    parseDoc (Toml.table []) [("bbb", Toml.table []), ("aaa", Toml.table [])] =
      Toml.table [("branches", Toml.table [("aaa", Toml.table []), ("bbb", Toml.table [])]),
                  ("defaults", Toml.table [])] ∧
    RepoConfig.from_str ⟨fun _ => false, fun _ => false⟩
        (parseDoc (Toml.table []) [("bbb", Toml.table [])]) =
      .error ⟨"cannot construct a task for branch between local config and defaults",
              some "branch.bbb"⟩ ∧
    RepoConfig.from_str ⟨fun _ => false, fun _ => false⟩
        (parseDoc (Toml.table []) [("bbb", Toml.table []), ("aaa", Toml.table [])]) =
      .error ⟨"cannot construct a task for branch between local config and defaults",
              some "branch.aaa"⟩ ∧
    (Error.mk "cannot construct a task for branch between local config and defaults"
        (some "branch.aaa") ≠
      Error.mk "cannot construct a task for branch between local config and defaults"
        (some "branch.bbb")) :=
  ⟨rfl, rfl, rfl, by decide⟩

end Hookshot
